import Mathlib

/-!
Verification of the univariate conditional-logistic-regression pipeline
(`clogit.py` and `clogit_triplets_v10.py`).

Shallow embedding notes.

* A raw CSV cell is either a number, a recognised missing-value sentinel
  (the strings "Na" / "NA" / "na" or an empty cell), or some other
  non-numeric string; `pd.to_numeric(..., errors="coerce")` sends the last
  two kinds to NaN, which we model as `none`.
* Column names are encoded as natural-number codes (see the `col...`
  definitions); the identifier columns `match_id` and `case` are typed
  fields of a row, never missing (`pandas` would likewise drop a row with
  a missing identifier from every group and from `dropna`).
* The two external numeric collaborators - `statsmodels`
  `ConditionalLogit(...).fit` and `np.exp` - are opaque parameters,
  bundled in the `Libs` structure.  A raised exception of the fitting
  routine is `Except.error ()`.
* `DataFrame.round` rounds half to even (numpy `rint` semantics),
  modelled exactly on rationals by `rintHalfEven`.
* The `DataFrame.sort_values("p")` call of `clogit.py` is modelled as a
  stable insertion sort: for the table sizes this program produces (at
  most 11 rows) numpy introsort runs its insertion-sort branch, which is
  stable.
* The two script variants share the loader, stratum filter and fitter
  logic line for line (`triplets_only` is kept as its own identical
  definition) but differ in the assembler: `clogit.py` sorts the rounded
  table ascending by p-value, while `clogit_triplets_v10.py` writes the
  rounded table without sorting, in registry order.  The two pipelines
  are embedded as `mainRun` and `mainRunV10`, parameterised by the
  registry.
-/

/-- A raw CSV cell before numeric coercion. -/
inductive Cell where
  | num (q : ℚ)
  | na
  | str
deriving DecidableEq, Repr

/-- Numeric coercion of one cell, as done by
`pd.to_numeric(col.replace(Na-sentinels, NaN), errors="coerce")`:
numbers survive, sentinels and non-numeric strings become missing. -/
def coerceCell : Cell → Option ℚ
  | .num q => some q
  | .na => none
  | .str => none

/-- One raw input row: the identifier columns plus the covariate cells,
aligned with the table header. -/
structure RawRow where
  match_id : ℕ
  case : ℤ
  vals : List Cell
deriving DecidableEq, Repr

/-- A raw input table: header of covariate-column codes and the rows. -/
structure RawTable where
  header : List ℕ
  rows : List RawRow
deriving DecidableEq, Repr

/-- A cleaned row: identifiers plus an association list from column code
to coerced numeric value (`none` = missing). -/
structure Row where
  match_id : ℕ
  case : ℤ
  cols : List (ℕ × Option ℚ)
deriving DecidableEq, Repr

/-- Value of column `c` in a cleaned row (missing when the column is
absent). -/
def getCol (r : Row) (c : ℕ) : Option ℚ :=
  (r.cols.lookup c).getD none

/-! Column-name codes.  The raw source columns referenced by the loader
and the registries of the two scripts, plus the two derived columns. -/

def colCombined_treatments : ℕ := 0
def colRCH_at_baseline : ℕ := 1
def colTreat_cat : ℕ := 2
def colHighRCH : ℕ := 3
def colRCC : ℕ := 4
def colPancreas_Cyst : ℕ := 5
def colSpinal_HB : ℕ := 6
def colCNS_HB : ℕ := 7
def colFamily : ℕ := 8
def colPheo : ℕ := 9
def colRenal_Cysts : ℕ := 10
def colNETs_pancreas : ℕ := 11
def colPancreas_CA : ℕ := 12

/-- Collapse the number of ocular treatments into 0 / 1 / 2
(`cat3` in both scripts; identical bodies). -/
def cat3 : Option ℚ → Option ℚ
  | none => none
  | some x => if x = 0 then some 0 else if x ≤ 2 then some 1 else some 2

/-- Read and clean the table (`load_clean` in both scripts): coerce every
non-identifier column to numeric, then derive
`treat_cat = cat3(Combined_treatments)` and `HighRCH = RCH_at_baseline`.
Indexing a source column that is absent from the header raises a
`KeyError`, modelled as `Except.error ()`.  The derived columns are
prepended so that, as with `pandas` column assignment, they shadow any
raw column of the same name. -/
def load_clean (t : RawTable) : Except Unit (List Row) :=
  if colCombined_treatments ∈ t.header ∧ colRCH_at_baseline ∈ t.header then
    .ok (t.rows.map fun r =>
      let base := (t.header.zip r.vals).map fun nc => (nc.1, coerceCell nc.2)
      ⟨r.match_id, r.case,
        (colHighRCH, (base.lookup colRCH_at_baseline).getD none) ::
        (colTreat_cat, cat3 ((base.lookup colCombined_treatments).getD none)) ::
        base⟩)
  else .error ()

/-- The rows of `df` belonging to stratum `m` (the `groupby("match_id")`
group of `m`). -/
def stratumRows (df : List Row) (m : ℕ) : List Row :=
  df.filter fun r => r.match_id == m

/-- Keep only strata with exactly 3 rows and exactly 1 case
(`keep_strata` in `clogit.py`). -/
def keep_strata (df : List Row) : List Row :=
  df.filter fun r =>
    (stratumRows df r.match_id).length == 3 &&
    ((stratumRows df r.match_id).map Row.case).sum == 1

/-- Same filter in `clogit_triplets_v10.py` (`triplets_only`); the body is
line for line the same as `keep_strata`. -/
def triplets_only (df : List Row) : List Row :=
  df.filter fun r =>
    (stratumRows df r.match_id).length == 3 &&
    ((stratumRows df r.match_id).map Row.case).sum == 1

/-- A row of the per-predictor working subset
`d = df[["case","match_id",pred]].dropna()`. -/
structure DRow where
  case : ℤ
  match_id : ℕ
  x : ℚ
deriving DecidableEq, Repr

/-- Select the three columns and drop rows with a missing value
(listwise deletion; the identifier columns are never missing in the
model). -/
def selectDropna (df : List Row) (c : ℕ) : List DRow :=
  df.filterMap fun r => (getCol r c).map fun v => ⟨r.case, r.match_id, v⟩

/-- The distinct stratum identifiers of a working subset, in order of
first appearance. -/
def strataIds (d : List DRow) : List ℕ :=
  (d.map DRow.match_id).dedup

/-- Predictor values of stratum `m` inside a working subset. -/
def xValsIn (d : List DRow) (m : ℕ) : List ℚ :=
  (d.filter fun r => r.match_id == m).map DRow.x

/-- Does some stratum contain more than one distinct predictor value
(`(d.groupby("match_id")[pred].nunique() > 1).any()`)? -/
def variesWithinSomeStratum (d : List DRow) : Bool :=
  (strataIds d).any fun m => 1 < (xValsIn d m).dedup.length

/-- The two opaque numeric collaborators: the conditional-logit fitting
routine (returning the coefficient, its standard error and its p-value
for the single predictor, or raising) and the exponential function. -/
structure Libs where
  fit : List DRow → Except Unit (ℚ × ℚ × ℚ)
  exp : ℚ → ℚ

/-- One emitted result row; `pred` is the registry key of the predictor
(the human-readable label is a fixed function of it), `strata` the count
of contributing strata (column `Strata` / `Triplets`). -/
structure FitRes where
  pred : ℕ
  OR : ℚ
  CI_low : ℚ
  CI_high : ℚ
  p : ℚ
  strata : ℕ
deriving DecidableEq, Repr

/-- Fit the conditional logit for one predictor (`fit_clogit` in both
scripts): listwise deletion, the within-stratum-variation guard, the
library fit, and the exp-transformed summary.  `49/25` is the literal
`1.96`. -/
def fit_clogit (lib : Libs) (df : List Row) (c : ℕ) : Except Unit (Option FitRes) :=
  if variesWithinSomeStratum (selectDropna df c) then
    match lib.fit (selectDropna df c) with
    | .error e => .error e
    | .ok (b, se, p) =>
      .ok (some ⟨c, lib.exp b, lib.exp (b - 49/25 * se), lib.exp (b + 49/25 * se),
                 p, (strataIds (selectDropna df c)).length⟩)
  else .ok none

/-- The fixed predictor registry of `clogit.py`, in declared order. -/
def PREDICTORS : List ℕ :=
  [colTreat_cat, colRCC, colPancreas_Cyst, colHighRCH, colSpinal_HB, colCNS_HB,
   colFamily, colPheo, colRenal_Cysts, colNETs_pancreas, colPancreas_CA]

/-- The fixed predictor registry of `clogit_triplets_v10.py`, in declared
order (same semantics, differently named source columns). -/
def PREDICTORS_v10 : List ℕ :=
  [colTreat_cat, colRCC, colPancreas_Cyst, colHighRCH, colSpinal_HB, colCNS_HB]

/-- The per-predictor loop of `main`: fit each registry entry in order,
keep the non-absent results; an exception raised by a fit propagates. -/
def runFits (lib : Libs) (df : List Row) : List ℕ → Except Unit (List FitRes)
  | [] => .ok []
  | c :: cs =>
    match fit_clogit lib df c with
    | .error e => .error e
    | .ok none => runFits lib df cs
    | .ok (some r) => (runFits lib df cs).map fun rest => r :: rest

/-- Round to the nearest integer, halves to even (numpy `rint`). -/
def rintHalfEven (x : ℚ) : ℤ :=
  if x - ⌊x⌋ = 1/2 then (if 2 ∣ ⌊x⌋ then ⌊x⌋ else ⌊x⌋ + 1) else round x

/-- Round to 2 decimal places. -/
def round2 (x : ℚ) : ℚ := (rintHalfEven (x * 100) : ℚ) / 100

/-- Round to 4 decimal places. -/
def round4 (x : ℚ) : ℚ := (rintHalfEven (x * 10000) : ℚ) / 10000

/-- The rounding step
`.round(OR:2, CI_low:2, CI_high:2, p:4)` applied to one result row. -/
def roundRes (r : FitRes) : FitRes :=
  ⟨r.pred, round2 r.OR, round2 r.CI_low, round2 r.CI_high, round4 r.p, r.strata⟩

instance {e a : Type} [DecidableEq e] [DecidableEq a] : DecidableEq (Except e a) :=
  fun x y =>
    match x, y with
    | .ok u, .ok v => if h : u = v then .isTrue (by rw [h]) else .isFalse (by simp [h])
    | .error u, .error v => if h : u = v then .isTrue (by rw [h]) else .isFalse (by simp [h])
    | .ok _, .error _ => .isFalse (by simp)
    | .error _, .ok _ => .isFalse (by simp)

/-- Comparison used by `sort_values("p")`. -/
def pLe (a b : FitRes) : Prop := a.p ≤ b.p

instance : DecidableRel pLe := fun a b => inferInstanceAs (Decidable (a.p ≤ b.p))

instance : IsTotal FitRes pLe := ⟨fun a b => le_total a.p b.p⟩

instance : IsTrans FitRes pLe := ⟨fun _ _ _ h h' => le_trans h h'⟩

/-- The whole pipeline of `clogit.py` on one in-memory table (its
`main`, parameterised by its registry; file I/O and printing are outside
the model, and Lean reserves the name `main`): load and clean, filter
strata, fit every registry predictor, round, sort ascending by
p-value. -/
def mainRun (lib : Libs) (registry : List ℕ) (t : RawTable) : Except Unit (List FitRes) :=
  match load_clean t with
  | .error e => .error e
  | .ok df =>
    match runFits lib (keep_strata df) registry with
    | .error e => .error e
    | .ok rows => .ok (List.insertionSort pLe (rows.map roundRes))

/-- The whole pipeline of `clogit_triplets_v10.py` (its `main`): the same
load, filter, fit and round steps, but no sort - that script writes the
rounded table as built, in registry order. -/
def mainRunV10 (lib : Libs) (registry : List ℕ) (t : RawTable) : Except Unit (List FitRes) :=
  match load_clean t with
  | .error e => .error e
  | .ok df =>
    match runFits lib (keep_strata df) registry with
    | .error e => .error e
    | .ok rows => .ok (rows.map roundRes)

/-! Concrete example data used by the witness and counterexample
theorems. -/

/-- A fitting library whose fit always succeeds with coefficient 0,
standard error 0 and p-value 1, and whose exponential is the constant
1 (positive and monotone). -/
def exLib : Libs := ⟨fun _ => .ok (0, 0, 1), fun _ => 1⟩

/-- A fitting library that raises exactly when the first predictor value
of the working subset is 1 (which below distinguishes one predictor
column from another). -/
def exLibErr : Libs :=
  ⟨fun d => if d.head?.map DRow.x = some 1 then .error () else .ok (0, 0, 1), fun _ => 1⟩

/-- A fitting library reporting p-value 1 when the first predictor value
of the working subset is 1 and p-value 0 otherwise, so that different
predictor columns can receive different p-values. -/
def exLibVaryP : Libs :=
  ⟨fun d => if d.head?.map DRow.x = some 1 then .ok (0, 0, 1) else .ok (0, 0, 0),
   fun _ => 1⟩

/-- A small raw table: one well-formed stratum (3 rows, 1 case) and one
malformed stratum (2 rows), with a missing treatment cell in the third
row. -/
def exTable : RawTable :=
  ⟨[colCombined_treatments, colRCH_at_baseline, colRCC, colPancreas_Cyst, colFamily],
   [⟨1, 1, [.num 1, .num 1, .num 1, .num 0, .num 1]⟩,
    ⟨1, 0, [.num 0, .num 0, .num 0, .num 1, .num 1]⟩,
    ⟨1, 0, [.na, .num 0, .num 1, .num 0, .num 1]⟩,
    ⟨2, 1, [.num 2, .num 1, .num 0, .num 0, .num 1]⟩,
    ⟨2, 0, [.num 3, .num 0, .num 1, .num 1, .num 1]⟩]⟩

/-- The first cleaned row of `exTable`. -/
def exRow : Row :=
  ⟨1, 1, [(3, some 1), (2, some 1), (0, some 1), (1, some 1), (4, some 1),
          (5, some 0), (8, some 1)]⟩

/-- The cleaned table produced by `load_clean exTable`. -/
def exDF : List Row :=
  [exRow,
   ⟨1, 0, [(3, some 0), (2, some 0), (0, some 0), (1, some 0), (4, some 0),
           (5, some 1), (8, some 1)]⟩,
   ⟨1, 0, [(3, some 0), (2, none), (0, none), (1, some 0), (4, some 1),
           (5, some 0), (8, some 1)]⟩,
   ⟨2, 1, [(3, some 1), (2, some 1), (0, some 2), (1, some 1), (4, some 0),
           (5, some 0), (8, some 1)]⟩,
   ⟨2, 0, [(3, some 0), (2, some 2), (0, some 3), (1, some 0), (4, some 1),
           (5, some 1), (8, some 1)]⟩]

/-- The retained stratum of `exDF`: the three rows of `match_id` 1
(stratum 2 has only two rows and is dropped in full). -/
def exKeep : List Row :=
  [exRow,
   ⟨1, 0, [(3, some 0), (2, some 0), (0, some 0), (1, some 0), (4, some 0),
           (5, some 1), (8, some 1)]⟩,
   ⟨1, 0, [(3, some 0), (2, none), (0, none), (1, some 0), (4, some 1),
           (5, some 0), (8, some 1)]⟩]

/-- A minimal cleaned table: one stratum of 3 rows, 1 case, a fully
observed binary predictor in column `colRCC`. -/
def exSmallDF : List Row :=
  [⟨1, 1, [(colRCC, some 1)]⟩, ⟨1, 0, [(colRCC, some 0)]⟩, ⟨1, 0, [(colRCC, some 1)]⟩]

/-- Like `exSmallDF` but the predictor value of the third row is missing:
the stratum loses a row to listwise deletion yet keeps two. -/
def exLossDF : List Row :=
  [⟨1, 1, [(colRCC, some 1)]⟩, ⟨1, 0, [(colRCC, some 0)]⟩, ⟨1, 0, []⟩]

/-- A raw table lacking the required `Combined_treatments` source
column. -/
def badTable : RawTable := ⟨[colRCH_at_baseline], []⟩

/-! Helper lemmas shared by the claim theorems. -/

/-- The stratum identifiers surviving listwise deletion are those of the
rows whose predictor value is present. -/
lemma selectDropna_map_match_id (df : List Row) (c : ℕ) :
    (selectDropna df c).map DRow.match_id =
      ((df.filter fun r => (getCol r c).isSome).map Row.match_id) := by
  induction df with
  | nil => rfl
  | cons r df ih =>
    cases h : getCol r c <;>
      simp [selectDropna, List.filterMap_cons, List.filter_cons, h] <;>
      simpa [selectDropna] using ih

/-- A successful fit is tagged with the predictor it was fitted for. -/
lemma fit_clogit_ok_fields (lib : Libs) (df : List Row) (c : ℕ) (r : FitRes)
    (b se p : ℚ)
    (hres : fit_clogit lib df c = .ok (some r))
    (hfit : lib.fit (selectDropna df c) = .ok (b, se, p)) :
    r = ⟨c, lib.exp b, lib.exp (b - 49/25 * se), lib.exp (b + 49/25 * se),
         p, (strataIds (selectDropna df c)).length⟩ := by
  unfold fit_clogit at hres
  split at hres
  · rw [hfit] at hres
    simp only [Except.ok.injEq, Option.some.injEq] at hres
    exact hres.symm
  · simp at hres

/-- A successful fit names its own predictor. -/
lemma fit_clogit_pred (lib : Libs) (df : List Row) (c : ℕ) (r : FitRes)
    (hres : fit_clogit lib df c = .ok (some r)) : r.pred = c := by
  unfold fit_clogit at hres
  split at hres
  · cases hfit : lib.fit (selectDropna df c) with
    | error e => rw [hfit] at hres; simp at hres
    | ok v =>
      obtain ⟨b, se, p⟩ := v
      rw [hfit] at hres
      simp only [Except.ok.injEq, Option.some.injEq] at hres
      rw [← hres]
  · simp at hres

/-- The predictors of the collected result rows form a subsequence of the
registry (the loop keeps registry order and never invents predictors). -/
lemma runFits_map_pred_sublist (lib : Libs) (df : List Row) (reg : List ℕ) :
    ∀ rows : List FitRes, runFits lib df reg = .ok rows →
      List.Sublist (rows.map FitRes.pred) reg := by
  induction reg with
  | nil =>
    intro rows h
    unfold runFits at h
    simp only [Except.ok.injEq] at h
    simp [← h]
  | cons c cs ih =>
    intro rows h
    unfold runFits at h
    cases hf : fit_clogit lib df c with
    | error e => rw [hf] at h; simp at h
    | ok o =>
      rw [hf] at h
      cases o with
      | none => exact (ih rows h).trans (List.sublist_cons_self c cs)
      | some r =>
        cases hrest : runFits lib df cs with
        | error e => rw [hrest] at h; simp [Except.map] at h
        | ok rest =>
          rw [hrest] at h
          simp only [Except.map, Except.ok.injEq] at h
          rw [← h]
          simpa [fit_clogit_pred lib df c r hf] using (ih rest hrest).cons₂ c

/-- Every collected result row is a successful fit of its own predictor. -/
lemma runFits_mem (lib : Libs) (df : List Row) (reg : List ℕ) :
    ∀ rows : List FitRes, runFits lib df reg = .ok rows →
      ∀ r ∈ rows, fit_clogit lib df r.pred = .ok (some r) := by
  induction reg with
  | nil =>
    intro rows h
    unfold runFits at h
    simp only [Except.ok.injEq] at h
    simp [← h]
  | cons c cs ih =>
    intro rows h
    unfold runFits at h
    cases hf : fit_clogit lib df c with
    | error e => rw [hf] at h; simp at h
    | ok o =>
      rw [hf] at h
      cases o with
      | none => exact ih rows h
      | some r =>
        cases hrest : runFits lib df cs with
        | error e => rw [hrest] at h; simp [Except.map] at h
        | ok rest =>
          rw [hrest] at h
          simp only [Except.map, Except.ok.injEq] at h
          intro r' hr'
          rw [← h] at hr'
          rcases List.mem_cons.mp hr' with rfl | hr'
          · rw [fit_clogit_pred lib df c r' hf]; exact hf
          · exact ih rest hrest r' hr'

/-- In a duplicate-free list, a pair occurring as a subsequence occurs in
index order. -/
lemma pair_sublist_indexOf_lt {u v : ℕ} :
    ∀ {reg : List ℕ}, List.Sublist [u, v] reg → reg.Nodup →
      reg.indexOf u < reg.indexOf v := by
  intro reg h hnd
  induction reg with
  | nil => simp at h
  | cons w ws ih =>
    cases h with
    | cons _ h' =>
      have hu : u ∈ ws := h'.subset (by simp)
      have hv : v ∈ ws := h'.subset (by simp)
      have hwu : w ≠ u := fun e => (List.nodup_cons.mp hnd).1 (e ▸ hu)
      have hwv : w ≠ v := fun e => (List.nodup_cons.mp hnd).1 (e ▸ hv)
      rw [List.indexOf_cons_ne _ hwu, List.indexOf_cons_ne _ hwv]
      exact Nat.succ_lt_succ (ih h' (List.nodup_cons.mp hnd).2)
    | cons₂ _ h' =>
      have hv : v ∈ ws := List.singleton_sublist.mp h'
      have hwv : u ≠ v := fun e => (List.nodup_cons.mp hnd).1 (e ▸ hv)
      rw [List.indexOf_cons_self, List.indexOf_cons_ne _ hwv]
      exact Nat.succ_pos _

/-- If the predictors of `l` form a subsequence of a duplicate-free
registry, then any two member rows whose predictors are in registry-index
order occur in that order inside `l`. -/
lemma rows_pair_sublist :
    ∀ {l : List FitRes} {reg : List ℕ}, List.Sublist (l.map FitRes.pred) reg →
      reg.Nodup → ∀ {a b : FitRes}, a ∈ l → b ∈ l →
      reg.indexOf a.pred < reg.indexOf b.pred → List.Sublist [a, b] l := by
  intro l
  induction l with
  | nil => intro reg _ _ a b ha; simp at ha
  | cons x xs ih =>
    intro reg hs hnd a b ha hb hidx
    rcases List.mem_cons.mp ha with rfl | ha'
    · rcases List.mem_cons.mp hb with rfl | hb'
      · exact absurd hidx (lt_irrefl _)
      · exact (List.singleton_sublist.mpr hb').cons₂ a
    · rcases List.mem_cons.mp hb with rfl | hb'
      · have hfa : a.pred ∈ xs.map FitRes.pred := List.mem_map_of_mem _ ha'
        have hpair : List.Sublist [b.pred, a.pred] reg :=
          ((List.singleton_sublist.mpr hfa).cons₂ b.pred).trans hs
        exact absurd hidx (Nat.lt_asymm (pair_sublist_indexOf_lt hpair hnd))
      · exact ((ih ((List.sublist_cons_self x.pred (xs.map FitRes.pred)).trans hs)
          hnd ha' hb' hidx)).cons x

/-! Claim theorems. -/

/-- C1: the stratum filter (`keep_strata` / `triplets_only`) retains
exactly the rows whose `match_id` group has exactly 3 rows and whose
outcome flags sum to exactly 1; every stratum failing either condition
loses all its rows; retained rows are the original rows unchanged (the
output is a sublist of the input); and the two variants agree. -/
theorem keep_strata_exact_triplet_single_case (df : List Row) :
    List.Sublist (keep_strata df) df ∧
    (∀ r : Row, r ∈ keep_strata df ↔
      r ∈ df ∧ (stratumRows df r.match_id).length = 3 ∧
        ((stratumRows df r.match_id).map Row.case).sum = 1) ∧
    triplets_only df = keep_strata df := by
  refine ⟨List.filter_sublist _, fun r => ?_, rfl⟩
  simp [keep_strata, List.mem_filter]

/-- C5: `treat_cat` is a pure function `cat3` of the raw
`Combined_treatments` value alone: missing to missing, 0 to 0, any x with
0 < x <= 2 to 1, any x > 2 to 2; and after loading, every row's
`treat_cat` value is `cat3` of that row's coerced `Combined_treatments`
value, independent of row order and other columns. -/
theorem cat3_bucketing :
    cat3 none = none ∧ cat3 (some 0) = some 0 ∧
    (∀ x : ℚ, 0 < x → x ≤ 2 → cat3 (some x) = some 1) ∧
    (∀ x : ℚ, 2 < x → cat3 (some x) = some 2) ∧
    (∀ (t : RawTable) (df : List Row) (r : Row), load_clean t = .ok df →
      r ∈ df → getCol r colTreat_cat = cat3 (getCol r colCombined_treatments)) := by
  refine ⟨rfl, by norm_num [cat3], fun x hx hx2 => ?_, fun x hx2 => ?_, ?_⟩
  · simp [cat3, ne_of_gt hx, hx2]
  · have h0 : x ≠ 0 := by positivity
    have h2 : ¬x ≤ 2 := not_le.mpr hx2
    simp [cat3, h0, h2]
  · intro t df r hload hr
    unfold load_clean at hload
    split at hload
    · simp only [Except.ok.injEq] at hload
      subst hload
      obtain ⟨raw, -, rfl⟩ := List.mem_map.mp hr
      simp [getCol, List.lookup, colTreat_cat, colHighRCH, colCombined_treatments]
    · simp at hload

/-- C9: any negative (non-missing) input falls into the `x <= 2` branch
of `cat3` and is mapped to category 1. -/
theorem cat3_negative_is_one (x : ℚ) (h : x < 0) : cat3 (some x) = some 1 := by
  have hne : x ≠ 0 := ne_of_lt h
  have hle : x ≤ 2 := le_of_lt (lt_trans h (by norm_num))
  simp [cat3, hne, hle]

/-- Witness for C9 at x = -1. -/
theorem cat3_negative_is_one_witness :
    (-1 : ℚ) < 0 ∧ cat3 (some (-1)) = some 1 :=
  ⟨by norm_num, cat3_negative_is_one (-1) (by norm_num)⟩

/-- C8: a table lacking a required derivation source column makes the
loader raise, and therefore the whole run abort (for every fitting
library and registry, hence before any stratum filtering or fitting);
the condition is not silently ignored. -/
theorem missing_source_column_aborts (t : RawTable) (lib : Libs) (reg : List ℕ)
    (h : colCombined_treatments ∉ t.header ∨ colRCH_at_baseline ∉ t.header) :
    load_clean t = .error () ∧ mainRun lib reg t = .error () := by
  have hc : ¬(colCombined_treatments ∈ t.header ∧ colRCH_at_baseline ∈ t.header) := by
    rcases h with h | h
    · exact fun hh => h hh.1
    · exact fun hh => h hh.2
  have hl : load_clean t = .error () := by rw [load_clean, if_neg hc]
  exact ⟨hl, by rw [mainRun, hl]⟩

/-- Witness for C8 at a table whose header lacks `Combined_treatments`. -/
theorem missing_source_column_aborts_witness :
    load_clean badTable = .error () ∧ mainRun exLib PREDICTORS badTable = .error () :=
  missing_source_column_aborts badTable exLib PREDICTORS (Or.inl (by decide))

/-- Witness for C5: the bucketing at 3/2 and 3, and the per-row equation
on the first cleaned row of the example table. -/
theorem cat3_bucketing_witness :
    ((0 : ℚ) < 3/2 ∧ (3/2 : ℚ) ≤ 2 ∧ cat3 (some (3/2)) = some 1) ∧
    ((2 : ℚ) < 3 ∧ cat3 (some 3) = some 2) ∧
    (load_clean exTable = .ok exDF ∧ exRow ∈ exDF ∧
      getCol exRow colTreat_cat = cat3 (getCol exRow colCombined_treatments)) :=
  ⟨⟨by norm_num, by norm_num, cat3_bucketing.2.2.1 (3/2) (by norm_num) (by norm_num)⟩,
   ⟨by norm_num, cat3_bucketing.2.2.2.1 3 (by norm_num)⟩,
   ⟨by decide, by decide, cat3_bucketing.2.2.2.2 exTable exDF exRow (by decide) (by decide)⟩⟩

/-- C2: a successful fit reports OR = exp(coefficient),
CI bounds = exp(coefficient ± 1.96 * standard error), the p-value the
fitting routine reported for the coefficient, and a strata count equal to
the number of distinct stratum identifiers among the rows surviving
listwise deletion (in the model only the predictor value can be missing
among the three selected columns). -/
theorem fit_result_summary_fields (lib : Libs) (df : List Row) (c : ℕ) (r : FitRes)
    (b se p : ℚ)
    (hres : fit_clogit lib df c = .ok (some r))
    (hfit : lib.fit (selectDropna df c) = .ok (b, se, p)) :
    r.OR = lib.exp b ∧ r.CI_low = lib.exp (b - 49/25 * se) ∧
    r.CI_high = lib.exp (b + 49/25 * se) ∧ r.p = p ∧
    r.strata =
      (((df.filter fun row => (getCol row c).isSome).map Row.match_id).dedup).length := by
  obtain rfl := fit_clogit_ok_fields lib df c r b se p hres hfit
  refine ⟨rfl, rfl, rfl, rfl, ?_⟩
  simp [strataIds, selectDropna_map_match_id]

/-- Witness for C2 on a concrete one-stratum table. -/
theorem fit_result_summary_fields_witness :
    (⟨colRCC, 1, 1, 1, 1, 1⟩ : FitRes).OR = exLib.exp 0 ∧
    (⟨colRCC, 1, 1, 1, 1, 1⟩ : FitRes).CI_low = exLib.exp (0 - 49/25 * 0) ∧
    (⟨colRCC, 1, 1, 1, 1, 1⟩ : FitRes).CI_high = exLib.exp (0 + 49/25 * 0) ∧
    (⟨colRCC, 1, 1, 1, 1, 1⟩ : FitRes).p = 1 ∧
    (⟨colRCC, 1, 1, 1, 1, 1⟩ : FitRes).strata =
      (((exSmallDF.filter fun row => (getCol row colRCC).isSome).map
        Row.match_id).dedup).length :=
  fit_result_summary_fields exLib exSmallDF colRCC ⟨colRCC, 1, 1, 1, 1, 1⟩ 0 0 1
    (by decide) (by decide)

/-- C7: every successfully fitted result has strictly positive odds ratio
and confidence bounds, bracketing the odds ratio, given a non-negative
standard error and the two facts about the exponential the code relies
on (positivity and monotonicity of `np.exp`). -/
theorem fitres_CI_brackets_OR (lib : Libs) (df : List Row) (c : ℕ) (r : FitRes)
    (b se p : ℚ)
    (hres : fit_clogit lib df c = .ok (some r))
    (hfit : lib.fit (selectDropna df c) = .ok (b, se, p))
    (hse : 0 ≤ se)
    (hpos : ∀ x : ℚ, 0 < lib.exp x)
    (hmono : Monotone lib.exp) :
    0 < r.OR ∧ 0 < r.CI_low ∧ 0 < r.CI_high ∧ r.CI_low ≤ r.OR ∧ r.OR ≤ r.CI_high := by
  obtain rfl := fit_clogit_ok_fields lib df c r b se p hres hfit
  have h1 : b - 49/25 * se ≤ b := by linarith
  have h2 : b ≤ b + 49/25 * se := by linarith
  exact ⟨hpos b, hpos _, hpos _, hmono h1, hmono h2⟩

/-- Witness for C7 on the same concrete fit. -/
theorem fitres_CI_brackets_OR_witness :
    0 < (⟨colRCC, 1, 1, 1, 1, 1⟩ : FitRes).OR ∧
    0 < (⟨colRCC, 1, 1, 1, 1, 1⟩ : FitRes).CI_low ∧
    0 < (⟨colRCC, 1, 1, 1, 1, 1⟩ : FitRes).CI_high ∧
    (⟨colRCC, 1, 1, 1, 1, 1⟩ : FitRes).CI_low ≤ (⟨colRCC, 1, 1, 1, 1, 1⟩ : FitRes).OR ∧
    (⟨colRCC, 1, 1, 1, 1, 1⟩ : FitRes).OR ≤ (⟨colRCC, 1, 1, 1, 1, 1⟩ : FitRes).CI_high :=
  fitres_CI_brackets_OR exLib exSmallDF colRCC ⟨colRCC, 1, 1, 1, 1, 1⟩ 0 0 1
    (by decide) (by decide) (le_refl 0) (fun _ => one_pos) monotone_const

/-- C6: if after listwise deletion no stratum holds two distinct values
of the predictor, the fit returns the absent result - for every fitting
library, so the fitting routine is never consulted - and no row of any
final output table carries that predictor. -/
theorem uninformative_predictor_absent (lib : Libs) (t : RawTable) (df : List Row) (c : ℕ)
    (hload : load_clean t = .ok df)
    (hnovar : variesWithinSomeStratum (selectDropna (keep_strata df) c) = false) :
    fit_clogit lib (keep_strata df) c = .ok none ∧
    (∀ lib' : Libs, fit_clogit lib' (keep_strata df) c = .ok none) ∧
    (∀ (reg : List ℕ) (out : List FitRes), mainRun lib reg t = .ok out →
      ∀ r ∈ out, r.pred ≠ c) := by
  have habs : ∀ lib' : Libs, fit_clogit lib' (keep_strata df) c = .ok none := by
    intro lib'
    simp [fit_clogit, hnovar]
  refine ⟨habs lib, habs, ?_⟩
  intro reg out hmain r hr
  rw [mainRun, hload] at hmain
  dsimp only at hmain
  cases hrf : runFits lib (keep_strata df) reg with
  | error e => rw [hrf] at hmain; simp at hmain
  | ok rows =>
    rw [hrf] at hmain
    simp only [Except.ok.injEq] at hmain
    subst hmain
    have hr' : r ∈ rows.map roundRes := (List.mem_insertionSort pLe).mp hr
    obtain ⟨r0, hr0, rfl⟩ := List.mem_map.mp hr'
    intro hc
    have hfit0 := runFits_mem lib (keep_strata df) reg rows hrf r0 hr0
    rw [show (roundRes r0).pred = r0.pred from rfl] at hc
    rw [hc] at hfit0
    have := (habs lib).symm.trans hfit0
    simp at this

/-- Witness for C6: the constant `Family` column of the example table. -/
theorem uninformative_predictor_absent_witness :
    fit_clogit exLib (keep_strata exDF) colFamily = .ok none :=
  (uninformative_predictor_absent exLib exTable exDF colFamily (by decide) (by decide)).1

/-- C10: the triplet composition is not re-verified after per-predictor
listwise deletion: a stratum identifier is in the working subset exactly
when at least one of its rows has the predictor present - however many
rows were lost - and the reported strata count counts exactly those
identifiers. -/
theorem fit_no_stratum_recheck (df : List Row) (c : ℕ) :
    (∀ m : ℕ, m ∈ strataIds (selectDropna df c) ↔
      ∃ r ∈ df, r.match_id = m ∧ (getCol r c).isSome = true) ∧
    (∀ (lib : Libs) (r : FitRes), fit_clogit lib df c = .ok (some r) →
      r.strata = (strataIds (selectDropna df c)).length) := by
  constructor
  · intro m
    rw [strataIds, List.mem_dedup, selectDropna_map_match_id]
    simp only [List.mem_map, List.mem_filter]
    constructor
    · rintro ⟨r, ⟨hrdf, hp⟩, rfl⟩; exact ⟨r, hrdf, rfl, hp⟩
    · rintro ⟨r, hrdf, rfl, hp⟩; exact ⟨r, ⟨hrdf, hp⟩, rfl⟩
  · intro lib r hres
    unfold fit_clogit at hres
    split at hres
    · cases hfit : lib.fit (selectDropna df c) with
      | error e => rw [hfit] at hres; simp at hres
      | ok v =>
        obtain ⟨b, se, p⟩ := v
        rw [hfit] at hres
        simp only [Except.ok.injEq, Option.some.injEq] at hres
        rw [← hres]
    · simp at hres

/-- Witness for C10: a stratum that lost one row to a missing predictor
value but kept two is still present and counted. -/
theorem fit_no_stratum_recheck_witness :
    (1 ∈ strataIds (selectDropna exLossDF colRCC)) ∧
    (⟨colRCC, 1, 1, 1, 1, 1⟩ : FitRes).strata =
      (strataIds (selectDropna exLossDF colRCC)).length :=
  ⟨((fit_no_stratum_recheck exLossDF colRCC).1 1).mpr
    ⟨⟨1, 1, [(colRCC, some 1)]⟩, by decide, rfl, by decide⟩,
   (fit_no_stratum_recheck exLossDF colRCC).2 exLib _ (by decide)⟩

/-! Further helper lemmas: evaluating the rounding step on integer
values, and the behaviour of the fitting loop around skipped and raising
entries. -/

/-- Half-to-even rounding is the identity on integer-valued rationals. -/
lemma rintHalfEven_intCast (n : ℤ) : rintHalfEven (n : ℚ) = n := by
  have h : ¬((n : ℚ) - ⌊(n : ℚ)⌋ = 1/2) := by
    rw [Int.floor_intCast]
    norm_num
  rw [rintHalfEven, if_neg h, round_intCast]

/-- Rounding 1 to two decimals gives 1. -/
lemma round2_one : round2 1 = 1 := by
  have h : ((1 : ℚ) * 100) = ((100 : ℤ) : ℚ) := by norm_num
  rw [round2, h, rintHalfEven_intCast]
  norm_num

/-- Rounding 1 to four decimals gives 1. -/
lemma round4_one : round4 1 = 1 := by
  have h : ((1 : ℚ) * 10000) = ((10000 : ℤ) : ℚ) := by norm_num
  rw [round4, h, rintHalfEven_intCast]
  norm_num

/-- The rounding step fixes a result row whose numeric fields are all 1. -/
lemma roundRes_ones (c k : ℕ) : roundRes ⟨c, 1, 1, 1, 1, k⟩ = ⟨c, 1, 1, 1, 1, k⟩ := by
  simp [roundRes, round2_one, round4_one]

/-- An uninformative predictor can be dropped from the registry without
changing the fitting loop's outcome. -/
lemma runFits_skip (lib : Libs) (df : List Row) (c : ℕ)
    (h : fit_clogit lib df c = .ok none) :
    ∀ reg₁ reg₂ : List ℕ,
      runFits lib df (reg₁ ++ c :: reg₂) = runFits lib df (reg₁ ++ reg₂) := by
  intro reg₁
  induction reg₁ with
  | nil =>
    intro reg₂
    simp only [List.nil_append, runFits, h]
  | cons a l ih =>
    intro reg₂
    cases hfa : fit_clogit lib df a with
    | error e => simp only [List.cons_append, runFits, hfa]
    | ok o =>
      cases o with
      | none => simp only [List.cons_append, runFits, hfa]; exact ih reg₂
      | some r =>
        simp only [List.cons_append, runFits, hfa, List.append_eq]
        rw [ih reg₂]

/-- A raising fit aborts the loop when every earlier registry entry fits
without raising. -/
lemma runFits_error (lib : Libs) (df : List Row) (c : ℕ)
    (hc : fit_clogit lib df c = .error ()) :
    ∀ reg₁ reg₂ : List ℕ, (∀ c' ∈ reg₁, fit_clogit lib df c' ≠ .error ()) →
      runFits lib df (reg₁ ++ c :: reg₂) = .error () := by
  intro reg₁
  induction reg₁ with
  | nil =>
    intro reg₂ _
    simp only [List.nil_append, runFits, hc]
  | cons a l ih =>
    intro reg₂ hok
    cases hfa : fit_clogit lib df a with
    | error e =>
      cases e
      exact absurd hfa (hok a (List.mem_cons_self a l))
    | ok o =>
      cases o with
      | none =>
        simp only [List.cons_append, runFits, hfa]
        exact ih reg₂ fun c' hc' => hok c' (List.mem_cons_of_mem a hc')
      | some r =>
        simp only [List.cons_append, runFits, hfa, List.append_eq]
        rw [ih reg₂ fun c' hc' => hok c' (List.mem_cons_of_mem a hc')]
        rfl

/-- Evaluation of the whole pipeline on the example table with the
always-succeeding library and a two-predictor registry. -/
lemma mainRun_exLib_eval :
    mainRun exLib [colRCC, colPancreas_Cyst] exTable =
      .ok [⟨colRCC, 1, 1, 1, 1, 1⟩, ⟨colPancreas_Cyst, 1, 1, 1, 1, 1⟩] := by
  have hload : load_clean exTable = .ok exDF := by decide
  have hks : keep_strata exDF = exKeep := by decide
  have h4 : fit_clogit exLib exKeep colRCC = .ok (some ⟨colRCC, 1, 1, 1, 1, 1⟩) := by
    decide
  have h5 : fit_clogit exLib exKeep colPancreas_Cyst =
      .ok (some ⟨colPancreas_Cyst, 1, 1, 1, 1, 1⟩) := by decide
  rw [mainRun, hload]
  dsimp only
  rw [hks]
  simp only [runFits, h4, h5, Except.map]
  simp only [List.map_cons, List.map_nil, roundRes_ones]
  simp [List.insertionSort, List.orderedInsert, pLe]

/-- Evaluation of the whole pipeline on the example table with the
selectively raising library and the registry holding only the predictor
it accepts. -/
lemma mainRun_exLibErr_eval :
    mainRun exLibErr [colPancreas_Cyst] exTable =
      .ok [⟨colPancreas_Cyst, 1, 1, 1, 1, 1⟩] := by
  have hload : load_clean exTable = .ok exDF := by decide
  have hks : keep_strata exDF = exKeep := by decide
  have h5 : fit_clogit exLibErr exKeep colPancreas_Cyst =
      .ok (some ⟨colPancreas_Cyst, 1, 1, 1, 1, 1⟩) := by decide
  rw [mainRun, hload]
  dsimp only
  rw [hks]
  simp only [runFits, h5, Except.map]
  simp only [List.map_cons, List.map_nil, roundRes_ones]
  simp [List.insertionSort, List.orderedInsert]

/-- Counterexample for C4: with a library that raises while fitting the
`RCC` predictor, the whole batch aborts and no output table is produced,
although the remaining predictor alone would have produced a table. -/
theorem fit_failure_aborts_batch_cex :
    mainRun exLibErr [colRCC, colPancreas_Cyst] exTable = .error () ∧
    mainRun exLibErr [colPancreas_Cyst] exTable =
      .ok [⟨colPancreas_Cyst, 1, 1, 1, 1, 1⟩] :=
  ⟨by decide, mainRun_exLibErr_eval⟩

/-- C4 as amended: a predictor whose fit yields the absent
(uninformative) outcome is skipped and the rest of the batch proceeds to
the same output; but a raising fit propagates (when the earlier registry
entries do not raise) and aborts the whole batch with no output table. -/
theorem uninformative_skipped_raising_aborts (lib : Libs) (t : RawTable)
    (df : List Row) (c : ℕ) (reg₁ reg₂ : List ℕ)
    (hload : load_clean t = .ok df) :
    (fit_clogit lib (keep_strata df) c = .ok none →
      mainRun lib (reg₁ ++ c :: reg₂) t = mainRun lib (reg₁ ++ reg₂) t) ∧
    ((∀ c' ∈ reg₁, fit_clogit lib (keep_strata df) c' ≠ .error ()) →
      fit_clogit lib (keep_strata df) c = .error () →
      mainRun lib (reg₁ ++ c :: reg₂) t = .error ()) := by
  constructor
  · intro h
    rw [mainRun, mainRun, hload]
    dsimp only
    rw [runFits_skip lib (keep_strata df) c h reg₁ reg₂]
  · intro hok hc
    rw [mainRun, hload]
    dsimp only
    rw [runFits_error lib (keep_strata df) c hc reg₁ reg₂ hok]

/-- Witness for the amended C4: on the example table, the uninformative
`Family` predictor is skipped without changing the output, and the
raising `RCC` fit aborts the batch after a successful earlier fit. -/
theorem uninformative_skipped_raising_aborts_witness :
    mainRun exLib ([colRCC] ++ colFamily :: []) exTable =
      mainRun exLib ([colRCC] ++ []) exTable ∧
    mainRun exLibErr ([colPancreas_Cyst] ++ colRCC :: []) exTable = .error () :=
  ⟨(uninformative_skipped_raising_aborts exLib exTable exDF colFamily [colRCC] []
      (by decide)).1 (by decide),
   (uninformative_skipped_raising_aborts exLibErr exTable exDF colRCC
      [colPancreas_Cyst] [] (by decide)).2 (by decide) (by decide)⟩

/-- Rounding 0 to four decimals gives 0. -/
lemma round4_zero : round4 0 = 0 := by
  have h : ((0 : ℚ) * 10000) = ((0 : ℤ) : ℚ) := by norm_num
  rw [round4, h, rintHalfEven_intCast]
  norm_num

/-- The rounding step fixes a result row whose OR and CI fields are 1 and
whose p-value is 0. -/
lemma roundRes_ones_pzero (c k : ℕ) :
    roundRes ⟨c, 1, 1, 1, 0, k⟩ = ⟨c, 1, 1, 1, 0, k⟩ := by
  simp [roundRes, round2_one, round4_zero]

/-- Evaluation of the unsorted `clogit_triplets_v10.py` pipeline on the
example table with the always-succeeding library. -/
lemma mainRunV10_exLib_eval :
    mainRunV10 exLib [colRCC, colPancreas_Cyst] exTable =
      .ok [⟨colRCC, 1, 1, 1, 1, 1⟩, ⟨colPancreas_Cyst, 1, 1, 1, 1, 1⟩] := by
  have hload : load_clean exTable = .ok exDF := by decide
  have hks : keep_strata exDF = exKeep := by decide
  have h4 : fit_clogit exLib exKeep colRCC = .ok (some ⟨colRCC, 1, 1, 1, 1, 1⟩) := by
    decide
  have h5 : fit_clogit exLib exKeep colPancreas_Cyst =
      .ok (some ⟨colPancreas_Cyst, 1, 1, 1, 1, 1⟩) := by decide
  rw [mainRunV10, hload]
  dsimp only
  rw [hks]
  simp only [runFits, h4, h5, Except.map]
  simp only [List.map_cons, List.map_nil, roundRes_ones]

/-- Evaluation of the unsorted `clogit_triplets_v10.py` pipeline on the
example table with the library whose reported p-values differ by
predictor: the first registry entry gets p-value 1, the second p-value
0, and no sort reorders them. -/
lemma mainRunV10_exLibVaryP_eval :
    mainRunV10 exLibVaryP [colRCC, colPancreas_Cyst] exTable =
      .ok [⟨colRCC, 1, 1, 1, 1, 1⟩, ⟨colPancreas_Cyst, 1, 1, 1, 0, 1⟩] := by
  have hload : load_clean exTable = .ok exDF := by decide
  have hks : keep_strata exDF = exKeep := by decide
  have h4 : fit_clogit exLibVaryP exKeep colRCC =
      .ok (some ⟨colRCC, 1, 1, 1, 1, 1⟩) := by decide
  have h5 : fit_clogit exLibVaryP exKeep colPancreas_Cyst =
      .ok (some ⟨colPancreas_Cyst, 1, 1, 1, 0, 1⟩) := by decide
  rw [mainRunV10, hload]
  dsimp only
  rw [hks]
  simp only [runFits, h4, h5, Except.map]
  simp only [List.map_cons, List.map_nil, roundRes_ones, roundRes_ones_pzero]

/-- Counterexample for C3: a concrete `clogit_triplets_v10.py` run whose
final output table is not sorted ascending by p-value - that script
builds, rounds and writes the table without ever sorting it. -/
theorem triplets_output_unsorted_cex :
    mainRunV10 exLibVaryP [colRCC, colPancreas_Cyst] exTable =
      .ok [⟨colRCC, 1, 1, 1, 1, 1⟩, ⟨colPancreas_Cyst, 1, 1, 1, 0, 1⟩] ∧
    ¬ List.Sorted (fun a b : FitRes => a.p ≤ b.p)
      [⟨colRCC, 1, 1, 1, 1, 1⟩, ⟨colPancreas_Cyst, 1, 1, 1, 0, 1⟩] := by
  refine ⟨mainRunV10_exLibVaryP_eval, fun h => ?_⟩
  have h1 := List.rel_of_sorted_cons h ⟨colPancreas_Cyst, 1, 1, 1, 0, 1⟩
    (List.mem_cons_self _ _)
  have h2 : (1 : ℚ) ≤ 0 := h1
  norm_num at h2

/-- C3 as amended: a table produced by the `clogit.py` pipeline is
sorted ascending by its p-value column with equal-p rows in declared
registry order (stable ties); a table produced by the
`clogit_triplets_v10.py` pipeline is not sorted - its rows appear in
declared registry order. -/
theorem output_order_by_variant (lib : Libs) (reg : List ℕ) (t : RawTable)
    (out outB : List FitRes)
    (hA : mainRun lib reg t = .ok out)
    (hB : mainRunV10 lib reg t = .ok outB)
    (hnd : reg.Nodup) :
    (List.Sorted (fun a b : FitRes => a.p ≤ b.p) out ∧
      ∀ a b : FitRes, a ∈ out → b ∈ out → a.p = b.p →
        reg.indexOf a.pred < reg.indexOf b.pred → List.Sublist [a, b] out) ∧
    List.Sublist (outB.map FitRes.pred) reg := by
  rw [mainRun] at hA
  rw [mainRunV10] at hB
  cases hload : load_clean t with
  | error e => rw [hload] at hA; simp at hA
  | ok df =>
    rw [hload] at hA
    rw [hload] at hB
    dsimp only at hA hB
    cases hrf : runFits lib (keep_strata df) reg with
    | error e => rw [hrf] at hA; simp at hA
    | ok rows =>
      rw [hrf] at hA
      rw [hrf] at hB
      simp only [Except.ok.injEq] at hA hB
      subst hA
      subst hB
      have hsp : List.Sublist ((rows.map roundRes).map FitRes.pred) reg := by
        have h1 : (rows.map roundRes).map FitRes.pred = rows.map FitRes.pred := by
          rw [List.map_map]; rfl
        rw [h1]
        exact runFits_map_pred_sublist lib (keep_strata df) reg rows hrf
      refine ⟨⟨List.sorted_insertionSort pLe (rows.map roundRes), ?_⟩, hsp⟩
      intro a b ha hb hp hidx
      have ha' : a ∈ rows.map roundRes := (List.mem_insertionSort pLe).mp ha
      have hb' : b ∈ rows.map roundRes := (List.mem_insertionSort pLe).mp hb
      exact List.pair_sublist_insertionSort (le_of_eq hp)
        (rows_pair_sublist hsp hnd ha' hb' hidx)

/-- Witness for the amended C3: the sorted variant-A conclusion and the
registry-ordered variant-B conclusion on a concrete two-row output. -/
theorem output_order_by_variant_witness :
    List.Sorted (fun a b : FitRes => a.p ≤ b.p)
      [⟨colRCC, 1, 1, 1, 1, 1⟩, ⟨colPancreas_Cyst, 1, 1, 1, 1, 1⟩] ∧
    List.Sublist
      (([⟨colRCC, 1, 1, 1, 1, 1⟩, ⟨colPancreas_Cyst, 1, 1, 1, 1, 1⟩] :
        List FitRes).map FitRes.pred)
      [colRCC, colPancreas_Cyst] :=
  ⟨(output_order_by_variant exLib [colRCC, colPancreas_Cyst] exTable _ _
      mainRun_exLib_eval mainRunV10_exLib_eval (by decide)).1.1,
   (output_order_by_variant exLib [colRCC, colPancreas_Cyst] exTable _ _
      mainRun_exLib_eval mainRunV10_exLib_eval (by decide)).2⟩
